import Mathlib

/-!
Verification of the directory-watching subsystem of mnamer
(`src/mnamer/watcher.py`).

The embedding translates the `Watcher` class into pure Lean functions.
Filesystem interaction is modelled by an environment record (`Env`) that
fixes, for one polling cycle, the discovery result, the outcome of every
`stat` call, the post-callback existence check, and the cleanup-time
filesystem snapshot together with the I/O-failure oracle for deletions.
Paths are lists of components; the parent of a path drops its last
component; `rmtree` removes a whole subtree while `rmdir` removes a single
(empty) directory.

Monotonic time (`time.monotonic()`) and the configured settle duration are
modelled as integers; only their ordered additive structure is used by the
code under verification.
-/

namespace Mnamer

/-- A filesystem path, as a list of components from the root. -/
abbrev FsPath := List String

/-- Parent directory of a path (`file_path.parent`, watcher.py line 79). -/
def parentDir (p : FsPath) : FsPath := p.dropLast

/-- Embeds the frozen dataclass `FileState` (watcher.py lines 16-19):
the size / mtime_ns snapshot used to detect that a file has settled. -/
structure FileState where
  size : Int
  mtime_ns : Int
deriving DecidableEq

/-- Snapshot of the filesystem tree used by the cleanup sweep: the set of
regular files and the set of directories, each given by its path. -/
structure Fs where
  files : List FsPath
  dirs : List FsPath
deriving DecidableEq

/-- Modelled from the spec: the Discovery collaborator
(`crawl_in` + `filter_containers` from `mnamer.utils`, not under `src/`)
as used by `Watcher._has_masked_files` (watcher.py lines 131-134):
recursively enumerate the files under `d` and report whether any of them
matches the active filename mask. -/
def Fs.hasMaskedFiles (fs : Fs) (mask : FsPath → Bool) (d : FsPath) : Bool :=
  fs.files.any fun f => d.isPrefixOf f && mask f

/-- Whether `e` is a direct child entry of directory `d`. -/
def isChildOf (d e : FsPath) : Bool :=
  e.length == d.length + 1 && d.isPrefixOf e

/-- Embeds `not any(directory.iterdir())` (watcher.py line 121): the
directory has no entries, files or subdirectories, directly inside it. -/
def Fs.dirEmpty (fs : Fs) (d : FsPath) : Bool :=
  (fs.files ++ fs.dirs).all fun e => !isChildOf d e

/-- A deletion performed by the cleanup sweep: `rmtree` (watcher.py
line 116) removes a whole subtree, `rmdir` (line 122) removes one empty
directory. -/
inductive DeleteAction where
  | rmtree (dir : FsPath)
  | rmdir (dir : FsPath)
deriving DecidableEq

/-- The directory a deletion action operates on. -/
def DeleteAction.targetOf : DeleteAction → FsPath
  | .rmtree d => d
  | .rmdir d => d

/-- Whether performing the action removes path `p` from disk. -/
def DeleteAction.removes : DeleteAction → FsPath → Bool
  | .rmtree d, p => d.isPrefixOf p
  | .rmdir d, p => d == p

/-- Effect of a deletion action on the filesystem snapshot. -/
def applyDelete (fs : Fs) : DeleteAction → Fs
  | .rmtree d =>
      ⟨fs.files.filter (fun f => !d.isPrefixOf f),
       fs.dirs.filter (fun e => !d.isPrefixOf e)⟩
  | .rmdir d =>
      ⟨fs.files, fs.dirs.filter (fun e => !(e == d))⟩

/-- The configuration surface of `SettingStore` consumed by the watcher
(watcher.py lines 30-40 and `_iter_files` / `_has_masked_files`).
The filename mask is modelled as a predicate on paths. -/
structure Settings where
  watch_input_directory : Option FsPath
  watch_poll_interval : Int
  watch_settle_seconds : Int
  watch_recursive : Bool
  cleanup_empty_source_dirs : Bool
  cleanup_processed_source_dirs : Bool
  mask : FsPath → Bool

/-- The configuration a `Watcher` instance stores at construction
(watcher.py lines 30-40). -/
structure Watcher where
  settings : Settings
  watch_directory : FsPath
  poll_interval : Int
  settle_seconds : Int
  cleanup_empty_source_dirs : Bool
  cleanup_processed_source_dirs : Bool

/-- Embeds `Watcher.__init__` (watcher.py lines 25-43): `none` models the
`RuntimeError` raised when no watch directory is configured; the poll
interval is clamped to at least 1, the settle duration to at least 0, and
the recursive-cleanup flag is the conjunction of the two cleanup settings
(lines 38-40). -/
def Watcher.init (s : Settings) : Option Watcher :=
  match s.watch_input_directory with
  | none => none
  | some d =>
      some
        { settings := s
          watch_directory := d
          poll_interval := max 1 s.watch_poll_interval
          settle_seconds := max 0 s.watch_settle_seconds
          cleanup_empty_source_dirs := s.cleanup_empty_source_dirs
          cleanup_processed_source_dirs :=
            s.cleanup_empty_source_dirs && s.cleanup_processed_source_dirs }

/-- The mutable tracking state of a `Watcher` (watcher.py lines 41-43):
`pending` maps a path to its snapshot and first-observation time,
`attempted` maps a path to the snapshot at which it was last dispatched,
and `processed_dirs` is the cleanup-candidate set (kept as a
duplicate-free list). -/
structure TrackState where
  pending : FsPath → Option (FileState × Int)
  attempted : FsPath → Option FileState
  processed_dirs : List FsPath

/-- The initial, empty tracking state. -/
def TrackState.initial : TrackState :=
  { pending := fun _ => none
    attempted := fun _ => none
    processed_dirs := [] }

/-- Pointwise update of a finite map represented as a function. -/
def mapUpdate {α : Type} (m : FsPath → Option α) (k : FsPath) (v : Option α) :
    FsPath → Option α :=
  fun q => if q = k then v else m q

/-- The environment of one polling cycle: everything `run_once` observes
from outside. `files` is the output of `_iter_files` (the Discovery
collaborator, watcher.py lines 88-92, modelled as an oracle); `stat`
gives the result of `file_path.stat()` (line 62), `none` modelling an
`OSError`; `now` is `time.monotonic()` (line 56); `callbackResult` is the
boolean returned by `process_target` (line 77), which the code discards;
`existsAfter` is the result of `file_path.exists()` after the callback
(line 78); `fs` is the filesystem snapshot the cleanup sweep reads;
`resolve` models `Path.resolve()` (lines 105, 110); `rmtreeFails`,
`iterdirFails` and `rmdirFails` model an `OSError` raised inside the
`try` block of lines 114-128 by, respectively, `rmtree(directory)`
(line 116), the emptiness check `any(directory.iterdir())` (line 121),
and `directory.rmdir()` (line 122) — each caught at line 127. -/
structure Env where
  files : List FsPath
  stat : FsPath → Option FileState
  now : Int
  callbackResult : FsPath → Bool
  existsAfter : FsPath → Bool
  fs : Fs
  resolve : FsPath → FsPath
  rmtreeFails : FsPath → Bool
  iterdirFails : FsPath → Bool
  rmdirFails : FsPath → Bool

/-- Accumulator for the per-file loop of `run_once` (watcher.py
lines 57-82): tracking state, the `processed` counter, and the list of
paths dispatched so far this cycle. -/
structure CycleAcc where
  st : TrackState
  processed : Nat
  dispatched : List FsPath

/-- Embeds the body of the `for file_path in self._iter_files()` loop of
`run_once` (watcher.py lines 59-82) for one file. A failed `stat` skips
the file; a snapshot equal to the attempted one skips it; otherwise the
pending entry supplies (or re-seeds) the first-observation time; a file
whose settle time has elapsed is dispatched: `process_target` is invoked
(its boolean result discarded), the parent directory becomes a cleanup
candidate when the file is gone afterwards, the snapshot is recorded as
attempted, the pending entry is dropped and the counter incremented. -/
def processOne (w : Watcher) (env : Env) (acc : CycleAcc) (file_path : FsPath) :
    CycleAcc :=
  match env.stat file_path with
  | none => acc
  | some state =>
    if acc.st.attempted file_path = some state then acc
    else
      let seeded : TrackState × Int :=
        match acc.st.pending file_path with
        | some prev =>
            if prev.1 = state then (acc.st, prev.2)
            else
              ({ acc.st with
                  pending := mapUpdate acc.st.pending file_path
                    (some (state, env.now)) },
               env.now)
        | none =>
            ({ acc.st with
                pending := mapUpdate acc.st.pending file_path
                  (some (state, env.now)) },
             env.now)
      let st1 := seeded.1
      let first_seen := seeded.2
      if env.now - first_seen < w.settle_seconds then
        { acc with st := st1 }
      else
        { st :=
            { pending := mapUpdate st1.pending file_path none
              attempted := mapUpdate st1.attempted file_path (some state)
              processed_dirs :=
                if env.existsAfter file_path then st1.processed_dirs
                else st1.processed_dirs.insert (parentDir file_path) }
          processed := acc.processed + 1
          dispatched := acc.dispatched ++ [file_path] }

/-- The per-file loop of `run_once` over the whole discovery list
(watcher.py lines 57-82). -/
def dispatchPhase (w : Watcher) (env : Env) (st : TrackState) : CycleAcc :=
  env.files.foldl (processOne w env) ⟨st, 0, []⟩

/-- Embeds `Watcher._prune_missing` (watcher.py lines 94-100): every
pending and attempted entry whose path was not seen this cycle is
dropped. `seen` is the cycle's discovery list (each discovered path is
added to `seen_paths` before its `stat` call, line 60). -/
def pruneMissing (seen : List FsPath) (st : TrackState) : TrackState :=
  { st with
    pending := fun p => if p ∈ seen then st.pending p else none
    attempted := fun p => if p ∈ seen then st.attempted p else none }

/-- Accumulator of the cleanup sweep: the evolving filesystem snapshot,
the deletions performed so far, and the candidates retained for the next
cycle. -/
structure SweepAcc where
  fs : Fs
  actions : List DeleteAction
  kept : List FsPath

/-- Embeds one iteration of the candidate loop of
`Watcher._cleanup_processed_directories` (watcher.py lines 106-129):
a candidate that no longer exists is dropped; one equal to the resolved
watch root, or still containing a mask-matching file, is kept without
action; otherwise the enabled deletion mode runs inside a `try` block —
an `OSError` raised by `rmtree`, by the emptiness check
`any(directory.iterdir())` (line 121, reached only when the empty-dirs
flag short-circuit holds), or by `rmdir`, keeps the candidate for retry,
and a candidate handled without error is dropped. -/
def cleanupStep (w : Watcher) (env : Env) (watch_root : FsPath)
    (acc : SweepAcc) (directory : FsPath) : SweepAcc :=
  if directory ∉ acc.fs.dirs then acc
  else if env.resolve directory = watch_root then
    { acc with kept := acc.kept ++ [directory] }
  else if acc.fs.hasMaskedFiles w.settings.mask directory then
    { acc with kept := acc.kept ++ [directory] }
  else if w.cleanup_processed_source_dirs then
    if env.rmtreeFails directory then
      { acc with kept := acc.kept ++ [directory] }
    else
      { fs := applyDelete acc.fs (.rmtree directory)
        actions := acc.actions ++ [.rmtree directory]
        kept := acc.kept }
  else if w.cleanup_empty_source_dirs then
    if env.iterdirFails directory then
      { acc with kept := acc.kept ++ [directory] }
    else if acc.fs.dirEmpty directory then
      if env.rmdirFails directory then
        { acc with kept := acc.kept ++ [directory] }
      else
        { fs := applyDelete acc.fs (.rmdir directory)
          actions := acc.actions ++ [.rmdir directory]
          kept := acc.kept }
    else acc
  else acc

/-- Embeds `Watcher._cleanup_processed_directories` (watcher.py
lines 102-129): with both cleanup flags disabled the sweep returns at
once, leaving the candidate set untouched; otherwise every candidate is
handled by `cleanupStep` against the resolved watch root. -/
def cleanupSweep (w : Watcher) (env : Env) (dirs : List FsPath) : SweepAcc :=
  if !w.cleanup_empty_source_dirs && !w.cleanup_processed_source_dirs then
    ⟨env.fs, [], dirs⟩
  else
    dirs.foldl (cleanupStep w env (env.resolve w.watch_directory))
      ⟨env.fs, [], []⟩

/-- The value of one `run_once` call: the tracking state afterwards, the
returned counter, the paths dispatched, the deletions performed by the
cleanup sweep, and the filesystem snapshot after those deletions. -/
structure RunResult where
  state : TrackState
  processed : Nat
  dispatched : List FsPath
  actions : List DeleteAction
  fsAfter : Fs

/-- Embeds `Watcher.run_once` (watcher.py lines 54-86): the per-file
dispatch loop, then `_prune_missing` over the seen paths, then
`_cleanup_processed_directories`, returning the number of files
processed. -/
def runOnce (w : Watcher) (env : Env) (st : TrackState) : RunResult :=
  let acc := dispatchPhase w env st
  let st1 := pruneMissing env.files acc.st
  let sw := cleanupSweep w env st1.processed_dirs
  { state := { st1 with processed_dirs := sw.kept }
    processed := acc.processed
    dispatched := acc.dispatched
    actions := sw.actions
    fsAfter := sw.fs }

/-- State after folding `runOnce` over a list of cycle environments, as
`Watcher.run` does one cycle per poll (watcher.py lines 50-52). -/
def stAfter (w : Watcher) (envs : List Env) (st : TrackState) : TrackState :=
  envs.foldl (fun s e => (runOnce w e s).state) st

/-! ### Basic lemmas about one iteration of the dispatch loop -/

theorem processOne_stat_none {w : Watcher} {env : Env} {acc : CycleAcc}
    {q : FsPath} (h : env.stat q = none) : processOne w env acc q = acc := by
  unfold processOne
  rw [h]

theorem processOne_attempted_hit {w : Watcher} {env : Env} {acc : CycleAcc}
    {q : FsPath} {s : FileState} (h : env.stat q = some s)
    (ha : acc.st.attempted q = some s) : processOne w env acc q = acc := by
  unfold processOne
  rw [h]
  simp [ha]

theorem processOne_pending_ne {w : Watcher} {env : Env} {acc : CycleAcc}
    {q p : FsPath} (h : p ≠ q) :
    (processOne w env acc q).st.pending p = acc.st.pending p := by
  unfold processOne
  cases henv : env.stat q with
  | none => rfl
  | some state =>
    dsimp only
    split
    · rfl
    · cases hp : acc.st.pending q <;>
        · dsimp only
          split <;> (try split) <;> simp [mapUpdate, h]

theorem processOne_attempted_ne {w : Watcher} {env : Env} {acc : CycleAcc}
    {q p : FsPath} (h : p ≠ q) :
    (processOne w env acc q).st.attempted p = acc.st.attempted p := by
  unfold processOne
  cases henv : env.stat q with
  | none => rfl
  | some state =>
    dsimp only
    split
    · rfl
    · cases hp : acc.st.pending q <;>
        · dsimp only
          split <;> (try split) <;> simp [mapUpdate, h]

theorem processOne_dispatched_cases (w : Watcher) (env : Env) (acc : CycleAcc)
    (q : FsPath) :
    (processOne w env acc q).dispatched = acc.dispatched ∨
      (processOne w env acc q).dispatched = acc.dispatched ++ [q] := by
  unfold processOne
  cases henv : env.stat q with
  | none => exact Or.inl rfl
  | some state =>
    dsimp only
    split
    · exact Or.inl rfl
    · cases hp : acc.st.pending q <;>
        · dsimp only
          split <;> (try split) <;> simp

theorem processOne_mem_dispatched {w : Watcher} {env : Env} {acc : CycleAcc}
    {q p : FsPath} (h : p ∈ (processOne w env acc q).dispatched) :
    p ∈ acc.dispatched ∨ p = q := by
  rcases processOne_dispatched_cases w env acc q with hc | hc <;> rw [hc] at h
  · exact Or.inl h
  · rcases List.mem_append.mp h with h' | h'
    · exact Or.inl h'
    · exact Or.inr (List.mem_singleton.mp h')

theorem mapUpdate_same {α : Type} (m : FsPath → Option α) (k : FsPath)
    (v v' : Option α) : mapUpdate (mapUpdate m k v) k v' = mapUpdate m k v' := by
  funext q
  simp only [mapUpdate]
  split <;> rfl

theorem mapUpdate_self {α : Type} (m : FsPath → Option α) (k : FsPath)
    (v : Option α) : mapUpdate m k v k = v := by
  simp [mapUpdate]

/-- Master case analysis for one iteration of the dispatch loop: the
iteration either leaves the accumulator untouched, only (re)seeds the
pending entry of the processed path with the cycle's `now`, or dispatches
the path, with the bookkeeping of watcher.py lines 76-82. -/
theorem processOne_cases (w : Watcher) (env : Env) (acc : CycleAcc)
    (q : FsPath) :
    processOne w env acc q = acc ∨
    (∃ s, env.stat q = some s ∧ acc.st.attempted q ≠ some s ∧
      processOne w env acc q =
        { acc with st :=
            { acc.st with
              pending := mapUpdate acc.st.pending q (some (s, env.now)) } }) ∨
    (∃ s, env.stat q = some s ∧ acc.st.attempted q ≠ some s ∧
      processOne w env acc q =
        { st :=
            { pending := mapUpdate acc.st.pending q none
              attempted := mapUpdate acc.st.attempted q (some s)
              processed_dirs :=
                if env.existsAfter q then acc.st.processed_dirs
                else acc.st.processed_dirs.insert (parentDir q) }
          processed := acc.processed + 1
          dispatched := acc.dispatched ++ [q] }) := by
  unfold processOne
  cases henv : env.stat q with
  | none => exact Or.inl rfl
  | some state =>
    dsimp only
    by_cases hatt : acc.st.attempted q = some state
    · simp only [hatt, if_pos rfl]
      exact Or.inl rfl
    · rw [if_neg hatt]
      cases hp : acc.st.pending q with
      | none =>
        dsimp only
        split
        · exact Or.inr (Or.inl ⟨state, rfl, hatt, rfl⟩)
        · refine Or.inr (Or.inr ⟨state, rfl, hatt, ?_⟩)
          simp [mapUpdate_same]
      | some prev =>
        dsimp only
        by_cases hfs : prev.1 = state
        · rw [if_pos hfs]
          dsimp only
          split
          · exact Or.inl rfl
          · exact Or.inr (Or.inr ⟨state, rfl, hatt, rfl⟩)
        · rw [if_neg hfs]
          dsimp only
          split
          · exact Or.inr (Or.inl ⟨state, rfl, hatt, rfl⟩)
          · refine Or.inr (Or.inr ⟨state, rfl, hatt, ?_⟩)
            simp [mapUpdate_same]

/-! ### Lemmas about the whole dispatch loop -/

theorem foldl_attempted_frozen {w : Watcher} {env : Env} {p : FsPath}
    {s : FileState} (hstat : env.stat p = some s) :
    ∀ (l : List FsPath) (acc : CycleAcc), acc.st.attempted p = some s →
      p ∉ acc.dispatched →
      (l.foldl (processOne w env) acc).st.attempted p = some s ∧
        p ∉ (l.foldl (processOne w env) acc).dispatched := by
  intro l
  induction l with
  | nil => exact fun acc h1 h2 => ⟨h1, h2⟩
  | cons q t ih =>
    intro acc h1 h2
    simp only [List.foldl_cons]
    by_cases hq : p = q
    · subst hq
      rw [processOne_attempted_hit hstat h1]
      exact ih acc h1 h2
    · refine ih _ ?_ ?_
      · rw [processOne_attempted_ne hq]
        exact h1
      · intro hmem
        rcases processOne_mem_dispatched hmem with h | h
        · exact h2 h
        · exact hq h

theorem foldl_dispatched_invariant {w : Watcher} {env : Env} {p : FsPath}
    {s : FileState} (hstat : env.stat p = some s) :
    ∀ (l : List FsPath) (acc : CycleAcc),
      (p ∈ acc.dispatched →
        acc.st.attempted p = some s ∧ acc.st.pending p = none) →
      (p ∈ (l.foldl (processOne w env) acc).dispatched →
        (l.foldl (processOne w env) acc).st.attempted p = some s ∧
          (l.foldl (processOne w env) acc).st.pending p = none) := by
  intro l
  induction l with
  | nil => exact fun acc h => h
  | cons q t ih =>
    intro acc h
    simp only [List.foldl_cons]
    refine ih _ ?_
    intro hmem
    rcases processOne_cases w env acc q with hc | ⟨s', hs', hatt, hc⟩ |
        ⟨s', hs', hatt, hc⟩
    · rw [hc] at hmem ⊢
      exact h hmem
    · rw [hc] at hmem ⊢
      rcases h hmem with ⟨h1, h2⟩
      dsimp only
      constructor
      · exact h1
      · by_cases hq : p = q
        · subst hq
          rw [hstat] at hs'
          have hss : s = s' := Option.some.inj hs'
          subst hss
          exact absurd h1 hatt
        · simpa [mapUpdate, hq] using h2
    · rw [hc] at hmem ⊢
      simp only [List.mem_append, List.mem_singleton] at hmem
      dsimp only
      rcases hmem with hmem | hmem
      · rcases h hmem with ⟨h1, h2⟩
        by_cases hq : p = q
        · subst hq
          rw [hstat] at hs'
          have hss : s = s' := Option.some.inj hs'
          subst hss
          exact absurd h1 hatt
        · constructor
          · simpa [mapUpdate, hq] using h1
          · simpa [mapUpdate, hq] using h2
      · subst hmem
        rw [hstat] at hs'
        have hss : s = s' := Option.some.inj hs'
        subst hss
        constructor
        · simp [mapUpdate]
        · simp [mapUpdate]

theorem foldl_dispatched_sub {w : Watcher} {env : Env} {p : FsPath} :
    ∀ (l : List FsPath) (acc : CycleAcc),
      p ∈ (l.foldl (processOne w env) acc).dispatched →
      p ∈ acc.dispatched ∨ p ∈ l := by
  intro l
  induction l with
  | nil => exact fun acc h => Or.inl h
  | cons q t ih =>
    intro acc h
    simp only [List.foldl_cons] at h
    rcases ih _ h with h' | h'
    · rcases processOne_mem_dispatched h' with h'' | h''
      · exact Or.inl h''
      · exact Or.inr (by simp [h''])
    · exact Or.inr (List.mem_cons_of_mem q h')

theorem foldl_count_eq_length {w : Watcher} {env : Env} :
    ∀ (l : List FsPath) (acc : CycleAcc),
      acc.processed = acc.dispatched.length →
      (l.foldl (processOne w env) acc).processed =
        (l.foldl (processOne w env) acc).dispatched.length := by
  intro l
  induction l with
  | nil => exact fun acc h => h
  | cons q t ih =>
    intro acc h
    simp only [List.foldl_cons]
    refine ih _ ?_
    rcases processOne_cases w env acc q with hc | ⟨s', _, _, hc⟩ |
        ⟨s', _, _, hc⟩ <;> rw [hc] <;> simp [h]

theorem foldl_maps_stat_none {w : Watcher} {env : Env} {p : FsPath}
    (hstat : env.stat p = none) :
    ∀ (l : List FsPath) (acc : CycleAcc),
      (l.foldl (processOne w env) acc).st.pending p = acc.st.pending p ∧
        (l.foldl (processOne w env) acc).st.attempted p = acc.st.attempted p := by
  intro l
  induction l with
  | nil => exact fun acc => ⟨rfl, rfl⟩
  | cons q t ih =>
    intro acc
    simp only [List.foldl_cons]
    by_cases hq : p = q
    · subst hq
      rw [processOne_stat_none hstat]
      exact ih acc
    · rcases ih (processOne w env acc q) with ⟨ih1, ih2⟩
      rw [processOne_pending_ne hq] at ih1
      rw [processOne_attempted_ne hq] at ih2
      exact ⟨ih1, ih2⟩

/-- The disjointness invariant of the tracking maps: no path is pending
at the very snapshot at which it is recorded as already attempted. -/
def PendingAttemptedDisjoint (st : TrackState) : Prop :=
  ∀ p s t, st.pending p = some (s, t) → st.attempted p ≠ some s

theorem foldl_disjoint (w : Watcher) (env : Env) :
    ∀ (l : List FsPath) (acc : CycleAcc),
      PendingAttemptedDisjoint acc.st →
      PendingAttemptedDisjoint (l.foldl (processOne w env) acc).st := by
  intro l
  induction l with
  | nil => exact fun acc h => h
  | cons q t ih =>
    intro acc h
    simp only [List.foldl_cons]
    refine ih _ ?_
    rcases processOne_cases w env acc q with hc | ⟨s', hs', hatt, hc⟩ |
        ⟨s', hs', hatt, hc⟩ <;> rw [hc]
    · exact h
    · intro p s t hp
      dsimp only at hp ⊢
      by_cases hq : p = q
      · subst hq
        rw [mapUpdate_self] at hp
        have hss : s' = s := (Prod.mk.injEq _ _ _ _).mp (Option.some.inj hp) |>.1
        subst hss
        exact hatt
      · simp only [mapUpdate, if_neg hq] at hp
        exact h p s t hp
    · intro p s t hp
      dsimp only at hp ⊢
      by_cases hq : p = q
      · subst hq
        rw [mapUpdate_self] at hp
        cases hp
      · simp only [mapUpdate, if_neg hq] at hp
        simp only [mapUpdate, if_neg hq]
        exact h p s t hp

/-! ### Lemmas about the cleanup sweep -/

/-- Master case analysis for one iteration of the cleanup loop: either no
deletion happens and the filesystem and action list are untouched (with
the candidate possibly retained), or a deletion is emitted, whose target
is the candidate itself, currently existing, not resolve-equal to the
watch root, and recursively free of mask-matching files. -/
theorem cleanupStep_cases (w : Watcher) (env : Env) (wr : FsPath)
    (acc : SweepAcc) (d : FsPath) :
    ((cleanupStep w env wr acc d).fs = acc.fs ∧
      (cleanupStep w env wr acc d).actions = acc.actions ∧
      ((cleanupStep w env wr acc d).kept = acc.kept ∨
        (cleanupStep w env wr acc d).kept = acc.kept ++ [d])) ∨
    (∃ a : DeleteAction,
      cleanupStep w env wr acc d =
        ⟨applyDelete acc.fs a, acc.actions ++ [a], acc.kept⟩ ∧
      a.targetOf = d ∧ d ∈ acc.fs.dirs ∧ env.resolve d ≠ wr ∧
      acc.fs.hasMaskedFiles w.settings.mask d = false ∧
      (a = DeleteAction.rmtree d → w.cleanup_processed_source_dirs = true) ∧
      (a = DeleteAction.rmdir d → w.cleanup_empty_source_dirs = true ∧
        w.cleanup_processed_source_dirs = false)) := by
  unfold cleanupStep
  by_cases h1 : d ∈ acc.fs.dirs
  · rw [if_neg (by simpa using h1)]
    by_cases h2 : env.resolve d = wr
    · rw [if_pos h2]
      exact Or.inl ⟨rfl, rfl, Or.inr rfl⟩
    · rw [if_neg h2]
      by_cases h3 : acc.fs.hasMaskedFiles w.settings.mask d = true
      · rw [if_pos h3]
        exact Or.inl ⟨rfl, rfl, Or.inr rfl⟩
      · rw [if_neg h3]
        by_cases h4 : w.cleanup_processed_source_dirs = true
        · rw [if_pos h4]
          by_cases h5 : env.rmtreeFails d = true
          · rw [if_pos h5]
            exact Or.inl ⟨rfl, rfl, Or.inr rfl⟩
          · rw [if_neg h5]
            refine Or.inr ⟨DeleteAction.rmtree d, rfl, rfl, h1, h2,
              Bool.not_eq_true _ ▸ h3, fun _ => h4, fun hr => ?_⟩
            cases hr
        · rw [if_neg h4]
          by_cases h6 : w.cleanup_empty_source_dirs = true
          · rw [if_pos h6]
            by_cases hio : env.iterdirFails d = true
            · rw [if_pos hio]
              exact Or.inl ⟨rfl, rfl, Or.inr rfl⟩
            · rw [if_neg hio]
              by_cases hem : acc.fs.dirEmpty d = true
              · rw [if_pos hem]
                by_cases h7 : env.rmdirFails d = true
                · rw [if_pos h7]
                  exact Or.inl ⟨rfl, rfl, Or.inr rfl⟩
                · rw [if_neg h7]
                  refine Or.inr ⟨DeleteAction.rmdir d, rfl, rfl, h1, h2,
                    Bool.not_eq_true _ ▸ h3, fun hr => ?_, fun _ =>
                      ⟨h6, Bool.not_eq_true _ |>.mp h4⟩⟩
                  cases hr
              · rw [if_neg hem]
                exact Or.inl ⟨rfl, rfl, Or.inl rfl⟩
          · rw [if_neg h6]
            exact Or.inl ⟨rfl, rfl, Or.inl rfl⟩
  · rw [if_pos (by simpa using h1)]
    exact Or.inl ⟨rfl, rfl, Or.inl rfl⟩

/-- A snapshot keeps every mask-matching file of the reference snapshot
`fs0`. -/
def MaskedIntact (mask : FsPath → Bool) (fs0 fs : Fs) : Prop :=
  ∀ f, f ∈ fs0.files → mask f = true → f ∈ fs.files

/-- A deletion emitted on a directory without mask-matching content keeps
every mask-matching file intact. -/
theorem applyDelete_masked_intact {mask : FsPath → Bool} {fs0 fs : Fs}
    {a : DeleteAction} (hkeep : MaskedIntact mask fs0 fs)
    (hmask : fs.hasMaskedFiles mask (a.targetOf) = false) :
    MaskedIntact mask fs0 (applyDelete fs a) := by
  intro f hf hm
  have hin : f ∈ fs.files := hkeep f hf hm
  cases a with
  | rmtree e =>
    simp only [applyDelete, List.mem_filter]
    refine ⟨hin, ?_⟩
    simp only [Bool.not_eq_true']
    by_contra hpre
    simp only [Bool.not_eq_false] at hpre
    have hcontra : fs.hasMaskedFiles mask e = true := by
      unfold Fs.hasMaskedFiles
      rw [List.any_eq_true]
      exact ⟨f, hin, by simp [hpre, hm]⟩
    rw [DeleteAction.targetOf] at hmask
    rw [hcontra] at hmask
    cases hmask
  | rmdir e => exact hin

/-- Fold invariant of the sweep: every mask-matching file of the
reference snapshot survives, and every emitted deletion targets a
directory having, at emission time, no mask-matching content — in a
snapshot that still holds all mask-matching files of the reference. -/
theorem sweep_fold_masked (w : Watcher) (env : Env) (wr : FsPath) :
    ∀ (l : List FsPath) (acc : SweepAcc),
      MaskedIntact w.settings.mask env.fs acc.fs →
      MaskedIntact w.settings.mask env.fs
          (l.foldl (cleanupStep w env wr) acc).fs ∧
        (∀ a, a ∈ (l.foldl (cleanupStep w env wr) acc).actions →
          a ∈ acc.actions ∨
            ∃ fsmid : Fs, MaskedIntact w.settings.mask env.fs fsmid ∧
              fsmid.hasMaskedFiles w.settings.mask (a.targetOf) = false) := by
  intro l
  induction l with
  | nil => exact fun acc h => ⟨h, fun a ha => Or.inl ha⟩
  | cons q t ih =>
    intro acc hkeep
    simp only [List.foldl_cons]
    rcases cleanupStep_cases w env wr acc q with ⟨hfs, hact, _⟩ |
        ⟨a, heq, htgt, _, _, hmask, _, _⟩
    · have hkeep' : MaskedIntact w.settings.mask env.fs
          (cleanupStep w env wr acc q).fs := hfs ▸ hkeep
      rcases ih (cleanupStep w env wr acc q) hkeep' with ⟨ih1, ih2⟩
      refine ⟨ih1, fun a ha => ?_⟩
      rcases ih2 a ha with h' | h'
      · rw [hact] at h'
        exact Or.inl h'
      · exact Or.inr h'
    · have hmask' : acc.fs.hasMaskedFiles w.settings.mask (a.targetOf) =
          false := by rw [htgt]; exact hmask
      have hkeep' : MaskedIntact w.settings.mask env.fs
          (cleanupStep w env wr acc q).fs := by
        rw [heq]
        exact applyDelete_masked_intact hkeep hmask'
      rcases ih (cleanupStep w env wr acc q) hkeep' with ⟨ih1, ih2⟩
      refine ⟨ih1, fun a' ha' => ?_⟩
      rcases ih2 a' ha' with h' | h'
      · rw [heq] at h'
        simp only [List.mem_append, List.mem_singleton] at h'
        rcases h' with h' | h'
        · exact Or.inl h'
        · subst h'
          exact Or.inr ⟨acc.fs, hkeep, hmask'⟩
      · exact Or.inr h'

/-- With the (effective) recursive-cleanup flag off, the sweep loop never
emits an `rmtree` deletion. -/
theorem sweep_fold_no_rmtree {w : Watcher} {env : Env} {wr : FsPath}
    (hcp : w.cleanup_processed_source_dirs = false) :
    ∀ (l : List FsPath) (acc : SweepAcc),
      (∀ e, DeleteAction.rmtree e ∉ acc.actions) →
      ∀ e, DeleteAction.rmtree e ∉
        (l.foldl (cleanupStep w env wr) acc).actions := by
  intro l
  induction l with
  | nil => exact fun acc h => h
  | cons q t ih =>
    intro acc h
    simp only [List.foldl_cons]
    refine ih _ ?_
    intro e hmem
    rcases cleanupStep_cases w env wr acc q with ⟨_, hact, _⟩ |
        ⟨a, heq, htgt, _, _, _, hrt, _⟩
    · rw [hact] at hmem
      exact h e hmem
    · rw [heq] at hmem
      simp only [List.mem_append, List.mem_singleton] at hmem
      rcases hmem with hmem | hmem
      · exact h e hmem
      · cases a with
        | rmtree e' =>
          rw [DeleteAction.targetOf] at htgt
          subst htgt
          rw [hrt rfl] at hcp
          cases hcp
        | rmdir e' => cases hmem

/-! ### Single-cycle lemmas used for the settle-time analysis -/

theorem runOnce_single_pending (w : Watcher) (env : Env) (st : TrackState)
    (p : FsPath) (s : FileState) (t0 : Int)
    (hf : env.files = [p]) (hs : env.stat p = some s)
    (hpend : st.pending p = some (s, t0)) (hatt : st.attempted p = none) :
    (env.now - t0 < w.settle_seconds →
      (runOnce w env st).processed = 0 ∧
        (runOnce w env st).state.pending p = some (s, t0) ∧
        (runOnce w env st).state.attempted p = none) ∧
    (¬ env.now - t0 < w.settle_seconds →
      (runOnce w env st).processed = 1 ∧
        (runOnce w env st).dispatched = [p]) := by
  unfold runOnce dispatchPhase
  rw [hf]
  simp only [List.foldl_cons, List.foldl_nil]
  unfold processOne
  dsimp only
  rw [hs]
  dsimp only
  rw [hatt, hpend]
  dsimp only
  rw [if_neg (fun hcon => Option.noConfusion hcon), if_pos rfl]
  constructor
  · intro h
    rw [if_pos h]
    dsimp only
    refine ⟨rfl, ?_, ?_⟩ <;> simp [pruneMissing, hpend, hatt]
  · intro h
    rw [if_neg h]
    exact ⟨rfl, rfl⟩

theorem runOnce_single_fresh (w : Watcher) (env : Env) (st : TrackState)
    (p : FsPath) (s : FileState)
    (hf : env.files = [p]) (hs : env.stat p = some s)
    (hpend : st.pending p = none) (hatt : st.attempted p = none) :
    (0 < w.settle_seconds →
      (runOnce w env st).processed = 0 ∧
        (runOnce w env st).state.pending p = some (s, env.now) ∧
        (runOnce w env st).state.attempted p = none) ∧
    (¬ 0 < w.settle_seconds →
      (runOnce w env st).processed = 1 ∧
        (runOnce w env st).dispatched = [p]) := by
  unfold runOnce dispatchPhase
  rw [hf]
  simp only [List.foldl_cons, List.foldl_nil]
  unfold processOne
  dsimp only
  rw [hs]
  dsimp only
  rw [hatt, hpend]
  dsimp only
  rw [if_neg (fun hcon => Option.noConfusion hcon), sub_self]
  constructor
  · intro h
    rw [if_pos h]
    dsimp only
    refine ⟨rfl, ?_, ?_⟩ <;> simp [pruneMissing, mapUpdate, hatt]
  · intro h
    rw [if_neg h]
    exact ⟨rfl, rfl⟩

/-- The `i`-th call of `run_once` made by the polling loop `run`
(watcher.py lines 50-52), starting from state `st`, when the cycle
environments are `envs`. -/
def runOnceAt (w : Watcher) (envs : List Env) (st : TrackState)
    (i : Fin envs.length) : RunResult :=
  runOnce w (envs.get i) (stAfter w (envs.take i.1) st)

theorem stAfter_append (w : Watcher) (l1 l2 : List Env) (st : TrackState) :
    stAfter w (l1 ++ l2) st = stAfter w l2 (stAfter w l1 st) :=
  List.foldl_append _ _ _ _

theorem stAfter_take_succ (w : Watcher) (envs : List Env) (st : TrackState)
    (i : Nat) (hi : i < envs.length) :
    stAfter w (envs.take (i + 1)) st =
      (runOnce w (envs.get ⟨i, hi⟩) (stAfter w (envs.take i) st)).state := by
  rw [List.take_succ]
  rw [List.getElem?_eq_getElem hi]
  rw [stAfter_append]
  rfl

theorem sweep_fold_resolve_ne {w : Watcher} {env : Env} {wr : FsPath} :
    ∀ (l : List FsPath) (acc : SweepAcc),
      (∀ a ∈ acc.actions, env.resolve (a.targetOf) ≠ wr) →
      ∀ a ∈ (l.foldl (cleanupStep w env wr) acc).actions,
        env.resolve (a.targetOf) ≠ wr := by
  intro l
  induction l with
  | nil => exact fun acc h => h
  | cons q t ih =>
    intro acc h
    simp only [List.foldl_cons]
    refine ih _ ?_
    intro a ha
    rcases cleanupStep_cases w env wr acc q with ⟨_, hact, _⟩ |
        ⟨a', heq, htgt, _, hres, _, _, _⟩
    · rw [hact] at ha
      exact h a ha
    · rw [heq] at ha
      simp only [List.mem_append, List.mem_singleton] at ha
      rcases ha with ha | ha
      · exact h a ha
      · subst ha
        rw [htgt]
        exact hres

/-! ### Concrete fixtures used by witnesses and counterexamples -/

/-- A concrete mask matching exactly the file `d/m.mkv`. -/
def maskCex : FsPath → Bool := fun f => f == ["d", "m.mkv"]

/-- Concrete settings with both cleanup flags enabled. -/
def settingsCex : Settings :=
  { watch_input_directory := some ["w"]
    watch_poll_interval := 1
    watch_settle_seconds := 0
    watch_recursive := true
    cleanup_empty_source_dirs := true
    cleanup_processed_source_dirs := true
    mask := maskCex }

/-- The watcher constructed from `settingsCex`. -/
def watcherCex : Watcher :=
  { settings := settingsCex
    watch_directory := ["w"]
    poll_interval := 1
    settle_seconds := 0
    cleanup_empty_source_dirs := true
    cleanup_processed_source_dirs := true }

/-- A concrete cleanup-time environment: the directory `d` holds the
mask-matching file `d/m.mkv` and an (unmasked) subdirectory `d/e`; no
deletion raises. -/
def envCex : Env :=
  { files := []
    stat := fun _ => none
    now := 0
    callbackResult := fun _ => true
    existsAfter := fun _ => true
    fs := ⟨[["d", "m.mkv"]], [["w"], ["d"], ["d", "e"]]⟩
    resolve := id
    rmtreeFails := fun _ => false
    iterdirFails := fun _ => false
    rmdirFails := fun _ => false }

/-! ### Claim C1 -/

/-- C1, counterexample to the claim as stated. The claim says that when a
candidate directory still contains (recursively) a file matching the
active mask, the sweep deletes neither the directory nor any of its
contents. Here the candidate `d` contains the masked file `d/m.mkv`, yet
the sweep — handling the other candidate `d/e`, which holds no masked
file — removes `d/e`, which is part of the contents of `d` (`d` is a
prefix of `d/e`). So the sweep does delete contents of a
masked-content-bearing candidate, falsifying the claim as stated. -/
theorem c1_counterexample :
    envCex.fs.hasMaskedFiles watcherCex.settings.mask ["d"] = true ∧
      (["d"] : FsPath) ∈ [(["d"] : FsPath), ["d", "e"]] ∧
      List.isPrefixOf ["d"] ["d", "e"] = true ∧
      (cleanupSweep watcherCex envCex [["d"], ["d", "e"]]).actions.any
        (fun a => a.removes ["d", "e"]) = true := by
  decide

/-- C1, amended. For every directory `d` that still contains,
recursively, at least one file matching the active mask, the cleanup
sweep performs no deletion operation on `d` itself (no `rmtree` or
`rmdir` targets it), regardless of the two cleanup flags — and, moreover,
no mask-matching file is ever deleted by the sweep. Contents of `d` may
only disappear through a nested candidate that itself contains no masked
file. -/
theorem c1_masked_dir_not_targeted (w : Watcher) (env : Env)
    (dirs : List FsPath) (d : FsPath)
    (hm : env.fs.hasMaskedFiles w.settings.mask d = true) :
    (∀ a ∈ (cleanupSweep w env dirs).actions, a.targetOf ≠ d) ∧
      (∀ f, f ∈ env.fs.files → w.settings.mask f = true →
        f ∈ (cleanupSweep w env dirs).fs.files) := by
  unfold Fs.hasMaskedFiles at hm
  rw [List.any_eq_true] at hm
  obtain ⟨f0, hf0, hcond⟩ := hm
  rw [Bool.and_eq_true] at hcond
  obtain ⟨hpre, hmaskf⟩ := hcond
  unfold cleanupSweep
  split
  · constructor
    · intro a ha
      cases ha
    · intro f hf _
      exact hf
  · have hbase : MaskedIntact w.settings.mask env.fs
        (⟨env.fs, [], []⟩ : SweepAcc).fs := fun f hf _ => hf
    rcases sweep_fold_masked w env (env.resolve w.watch_directory) dirs
        ⟨env.fs, [], []⟩ hbase with ⟨h1, h2⟩
    refine ⟨?_, h1⟩
    intro a ha htgt
    rcases h2 a ha with h' | ⟨fsmid, hmid, hmask⟩
    · cases h'
    · have hf0mid : f0 ∈ fsmid.files := hmid f0 hf0 hmaskf
      have hcontra : fsmid.hasMaskedFiles w.settings.mask d = true := by
        unfold Fs.hasMaskedFiles
        rw [List.any_eq_true]
        exact ⟨f0, hf0mid, by simp [hpre, hmaskf]⟩
      rw [htgt, hcontra] at hmask
      cases hmask

/-- Witness for C1 (amended), at the concrete fixture: the masked
candidate `d` is never the target of a deletion and the masked file
survives the sweep. -/
theorem c1_witness :
    (∀ a ∈ (cleanupSweep watcherCex envCex [["d"], ["d", "e"]]).actions,
      a.targetOf ≠ ["d"]) ∧
      (∀ f, f ∈ envCex.fs.files → watcherCex.settings.mask f = true →
        f ∈ (cleanupSweep watcherCex envCex [["d"], ["d", "e"]]).fs.files) :=
  c1_masked_dir_not_targeted watcherCex envCex [["d"], ["d", "e"]] ["d"]
    (by decide)

/-! ### Claim C2 -/

/-- C2: a candidate whose resolved path equals the resolved watch root is
never deleted by the cleanup sweep — no deletion action of the sweep
targets it, whatever the two cleanup flags are (watcher.py
lines 110-111). The statement quantifies over all directories, not only
candidates, so in particular it covers every candidate in `dirs`. -/
theorem c2_watch_root_never_deleted (w : Watcher) (env : Env)
    (dirs : List FsPath) (d : FsPath)
    (hd : env.resolve d = env.resolve w.watch_directory) :
    ∀ a ∈ (cleanupSweep w env dirs).actions, a.targetOf ≠ d := by
  intro a ha htgt
  revert ha
  unfold cleanupSweep
  split
  · intro ha
    cases ha
  · intro ha
    have h := sweep_fold_resolve_ne dirs ⟨env.fs, [], []⟩
      (fun a' ha' => by cases ha') a ha
    rw [htgt, hd] at h
    exact h rfl

/-- Witness for C2: with the watch root `w` itself in the candidate set,
no deletion of the sweep targets it. -/
theorem c2_witness :
    (cleanupSweep watcherCex envCex [["w"], ["d", "e"]]).actions.all
      (fun a => !(a.targetOf == ["w"])) = true := by
  rw [List.all_eq_true]
  intro a ha
  have h := c2_watch_root_never_deleted watcherCex envCex
    [["w"], ["d", "e"]] ["w"] rfl a ha
  simpa using h

/-! ### Claim C5 -/

/-- Concrete settings enabling only `cleanup_processed_source_dirs`. -/
def settingsOnlyProcessed : Settings :=
  { watch_input_directory := some ["w"]
    watch_poll_interval := 1
    watch_settle_seconds := 0
    watch_recursive := true
    cleanup_empty_source_dirs := false
    cleanup_processed_source_dirs := true
    mask := maskCex }

/-- The watcher `Watcher.init` builds from `settingsOnlyProcessed`. -/
def watcherOnlyProcessed : Watcher :=
  { settings := settingsOnlyProcessed
    watch_directory := ["w"]
    poll_interval := max 1 settingsOnlyProcessed.watch_poll_interval
    settle_seconds := max 0 settingsOnlyProcessed.watch_settle_seconds
    cleanup_empty_source_dirs := settingsOnlyProcessed.cleanup_empty_source_dirs
    cleanup_processed_source_dirs :=
      settingsOnlyProcessed.cleanup_empty_source_dirs &&
        settingsOnlyProcessed.cleanup_processed_source_dirs }

/-- C5: the effective recursive-cleanup flag stored at construction is
the conjunction of the two cleanup settings; every `rmtree` (full-tree)
deletion of the sweep requires both settings enabled; and with
`cleanup_empty_source_dirs` disabled the sweep performs no deletion at
all and leaves the candidate set untouched — so a non-empty candidate
directory is never deleted when only `cleanup_processed_source_dirs` is
enabled. -/
theorem c5_recursive_requires_both (s : Settings) (w : Watcher) (env : Env)
    (dirs : List FsPath) (hw : Watcher.init s = some w) :
    w.cleanup_processed_source_dirs =
        (s.cleanup_empty_source_dirs && s.cleanup_processed_source_dirs) ∧
      (∀ d, DeleteAction.rmtree d ∈ (cleanupSweep w env dirs).actions →
        s.cleanup_empty_source_dirs = true ∧
          s.cleanup_processed_source_dirs = true) ∧
      (s.cleanup_empty_source_dirs = false →
        (cleanupSweep w env dirs).actions = [] ∧
          (cleanupSweep w env dirs).kept = dirs) := by
  unfold Watcher.init at hw
  cases hdir : s.watch_input_directory with
  | none =>
    rw [hdir] at hw
    cases hw
  | some root =>
    rw [hdir] at hw
    cases hw
    refine ⟨rfl, ?_, ?_⟩
    · intro d hmem
      by_cases hflag : (s.cleanup_empty_source_dirs &&
          s.cleanup_processed_source_dirs) = true
      · exact Bool.and_eq_true _ _ |>.mp hflag
      · exfalso
        revert hmem
        unfold cleanupSweep
        split
        · intro hmem
          cases hmem
        · intro hmem
          exact sweep_fold_no_rmtree
            (by dsimp only; exact Bool.not_eq_true _ |>.mp hflag) dirs
            ⟨env.fs, [], []⟩ (fun e he => by cases he) d hmem
    · intro he
      constructor <;>
        · unfold cleanupSweep
          rw [if_pos (by dsimp only; rw [he]; rfl)]

/-- Witness for C5 at the concrete fixture with only the processed-dirs
flag enabled. -/
theorem c5_witness :
    watcherOnlyProcessed.cleanup_processed_source_dirs =
        (settingsOnlyProcessed.cleanup_empty_source_dirs &&
          settingsOnlyProcessed.cleanup_processed_source_dirs) ∧
      (∀ d, DeleteAction.rmtree d ∈
          (cleanupSweep watcherOnlyProcessed envCex [["d", "e"]]).actions →
        settingsOnlyProcessed.cleanup_empty_source_dirs = true ∧
          settingsOnlyProcessed.cleanup_processed_source_dirs = true) ∧
      (settingsOnlyProcessed.cleanup_empty_source_dirs = false →
        (cleanupSweep watcherOnlyProcessed envCex [["d", "e"]]).actions = [] ∧
          (cleanupSweep watcherOnlyProcessed envCex [["d", "e"]]).kept =
            [["d", "e"]]) :=
  c5_recursive_requires_both settingsOnlyProcessed watcherOnlyProcessed
    envCex [["d", "e"]] rfl

/-! ### Claim C7 -/

/-- C7, counterexample to the claim as stated. The claim says a candidate
is retained at the end of the sweep only when an existence or I/O check
failed on it. Here the candidate `d` exists, no filesystem operation of
the sweep raises (`rmtreeFails`, `iterdirFails` and `rmdirFails` are
false everywhere), it is evaluated and left alone — yet it is retained,
because it still contains a mask-matching file. -/
theorem c7_counterexample :
    (["d"] : FsPath) ∈ envCex.fs.dirs ∧
      envCex.rmtreeFails ["d"] = false ∧
      envCex.iterdirFails ["d"] = false ∧
      envCex.rmdirFails ["d"] = false ∧
      envCex.fs.hasMaskedFiles watcherCex.settings.mask ["d"] = true ∧
      (cleanupSweep watcherCex envCex [["d"]]).kept = [["d"]] := by
  decide

/-- C7, amended. A candidate is retained by one iteration of the sweep
loop exactly when it exists and either resolves to the watch root, still
contains a mask-matching file, or an `OSError` was raised during the
checking or deletion performed by its enabled cleanup mode (`rmtree` in
recursive mode; the `iterdir`-based emptiness check or `rmdir` in
empty-dirs mode); a candidate that no longer exists, or was evaluated
and left alone without error, is dropped. Additionally, with both
cleanup flags disabled the sweep returns immediately and the whole
candidate set is retained unexamined. -/
theorem c7_retention_characterization (w : Watcher) (env : Env)
    (wr : FsPath) (acc : SweepAcc) (d : FsPath) (dirs : List FsPath) :
    ((cleanupStep w env wr acc d).kept =
      if d ∈ acc.fs.dirs ∧
          (env.resolve d = wr ∨
            acc.fs.hasMaskedFiles w.settings.mask d = true ∨
            (w.cleanup_processed_source_dirs = true ∧
              env.rmtreeFails d = true) ∨
            (w.cleanup_processed_source_dirs = false ∧
              w.cleanup_empty_source_dirs = true ∧
              env.iterdirFails d = true) ∨
            (w.cleanup_processed_source_dirs = false ∧
              w.cleanup_empty_source_dirs = true ∧
              acc.fs.dirEmpty d = true ∧ env.rmdirFails d = true))
        then acc.kept ++ [d] else acc.kept) ∧
      (w.cleanup_empty_source_dirs = false →
        w.cleanup_processed_source_dirs = false →
        (cleanupSweep w env dirs).kept = dirs) := by
  constructor
  · unfold cleanupStep
    by_cases h1 : d ∈ acc.fs.dirs
    · rw [if_neg (by simpa using h1)]
      by_cases h2 : env.resolve d = wr
      · rw [if_pos h2, if_pos ⟨h1, Or.inl h2⟩]
      · rw [if_neg h2]
        by_cases h3 : acc.fs.hasMaskedFiles w.settings.mask d = true
        · rw [if_pos h3, if_pos ⟨h1, Or.inr (Or.inl h3)⟩]
        · rw [if_neg h3]
          by_cases h4 : w.cleanup_processed_source_dirs = true
          · rw [if_pos h4]
            by_cases h5 : env.rmtreeFails d = true
            · rw [if_pos h5,
                if_pos ⟨h1, Or.inr (Or.inr (Or.inl ⟨h4, h5⟩))⟩]
            · rw [if_neg h5, if_neg ?_]
              rintro ⟨-, hor⟩
              rcases hor with h' | h' | ⟨-, h'⟩ | ⟨h', -, -⟩ | ⟨h', -⟩
              · exact h2 h'
              · exact h3 h'
              · exact h5 h'
              · rw [h4] at h'
                cases h'
              · rw [h4] at h'
                cases h'
          · rw [if_neg h4]
            by_cases h6 : w.cleanup_empty_source_dirs = true
            · rw [if_pos h6]
              by_cases hio : env.iterdirFails d = true
              · rw [if_pos hio, if_pos ⟨h1, Or.inr (Or.inr (Or.inr (Or.inl
                  ⟨Bool.not_eq_true _ |>.mp h4, h6, hio⟩)))⟩]
              · rw [if_neg hio]
                by_cases hem : acc.fs.dirEmpty d = true
                · rw [if_pos hem]
                  by_cases h7 : env.rmdirFails d = true
                  · rw [if_pos h7, if_pos ⟨h1, Or.inr (Or.inr (Or.inr
                      (Or.inr ⟨Bool.not_eq_true _ |>.mp h4, h6, hem, h7⟩)))⟩]
                  · rw [if_neg h7, if_neg ?_]
                    rintro ⟨-, hor⟩
                    rcases hor with h' | h' | ⟨h', -⟩ | ⟨-, -, h'⟩ |
                      ⟨-, -, -, h'⟩
                    · exact h2 h'
                    · exact h3 h'
                    · exact h4 h'
                    · exact hio h'
                    · exact h7 h'
                · rw [if_neg hem, if_neg ?_]
                  rintro ⟨-, hor⟩
                  rcases hor with h' | h' | ⟨h', -⟩ | ⟨-, -, h'⟩ |
                    ⟨-, -, h', -⟩
                  · exact h2 h'
                  · exact h3 h'
                  · exact h4 h'
                  · exact hio h'
                  · exact hem h'
            · rw [if_neg h6, if_neg ?_]
              rintro ⟨-, hor⟩
              rcases hor with h' | h' | ⟨h', -⟩ | ⟨-, h', -⟩ | ⟨-, h', -, -⟩
              · exact h2 h'
              · exact h3 h'
              · exact h4 h'
              · exact h6 h'
              · exact h6 h'
    · rw [if_pos (by simpa using h1), if_neg (fun hc => h1 hc.1)]
  · intro he hp
    unfold cleanupSweep
    rw [if_pos (by rw [he, hp]; rfl)]

/-- Witness for C7 (amended) at concrete inputs. -/
theorem c7_witness :
    ((cleanupStep watcherCex envCex ["w"] ⟨envCex.fs, [], []⟩ ["d"]).kept =
      if (["d"] : FsPath) ∈ (⟨envCex.fs, [], []⟩ : SweepAcc).fs.dirs ∧
          (envCex.resolve ["d"] = ["w"] ∨
            (⟨envCex.fs, [], []⟩ : SweepAcc).fs.hasMaskedFiles
              watcherCex.settings.mask ["d"] = true ∨
            (watcherCex.cleanup_processed_source_dirs = true ∧
              envCex.rmtreeFails ["d"] = true) ∨
            (watcherCex.cleanup_processed_source_dirs = false ∧
              watcherCex.cleanup_empty_source_dirs = true ∧
              envCex.iterdirFails ["d"] = true) ∨
            (watcherCex.cleanup_processed_source_dirs = false ∧
              watcherCex.cleanup_empty_source_dirs = true ∧
              (⟨envCex.fs, [], []⟩ : SweepAcc).fs.dirEmpty ["d"] = true ∧
              envCex.rmdirFails ["d"] = true))
        then (⟨envCex.fs, [], []⟩ : SweepAcc).kept ++ [["d"]]
        else (⟨envCex.fs, [], []⟩ : SweepAcc).kept) ∧
      (watcherCex.cleanup_empty_source_dirs = false →
        watcherCex.cleanup_processed_source_dirs = false →
        (cleanupSweep watcherCex envCex [["d"]]).kept = [["d"]]) :=
  c7_retention_characterization watcherCex envCex ["w"] ⟨envCex.fs, [], []⟩
    ["d"] [["d"]]

/-! ### Projection lemmas for `runOnce` -/

theorem runOnce_dispatched_eq (w : Watcher) (env : Env) (st : TrackState) :
    (runOnce w env st).dispatched = (dispatchPhase w env st).dispatched := rfl

theorem runOnce_processed_eq (w : Watcher) (env : Env) (st : TrackState) :
    (runOnce w env st).processed = (dispatchPhase w env st).processed := rfl

theorem runOnce_state_pending_eq (w : Watcher) (env : Env) (st : TrackState) :
    (runOnce w env st).state.pending =
      (pruneMissing env.files (dispatchPhase w env st).st).pending := rfl

theorem runOnce_state_attempted_eq (w : Watcher) (env : Env)
    (st : TrackState) :
    (runOnce w env st).state.attempted =
      (pruneMissing env.files (dispatchPhase w env st).st).attempted := rfl

/-! ### Claim C3 -/

/-- C3: at-most-once dispatch per distinct snapshot. If a path was
dispatched in one `run_once` cycle at snapshot `s` (the cycle's `stat`
result for it), and the next cycle observes the same snapshot for that
path, then the next cycle does not dispatch it — it contributes nothing
to the dispatched list, hence nothing to the returned count (watcher.py
lines 66-67 and 80). -/
theorem c3_at_most_once (w : Watcher) (env1 env2 : Env) (st : TrackState)
    (p : FsPath) (s : FileState)
    (h1 : p ∈ (runOnce w env1 st).dispatched)
    (hs1 : env1.stat p = some s) (hs2 : env2.stat p = some s) :
    p ∉ (runOnce w env2 (runOnce w env1 st).state).dispatched := by
  rw [runOnce_dispatched_eq] at h1
  have hcycle1 := foldl_dispatched_invariant hs1 env1.files
    ⟨st, 0, []⟩ (fun hmem => absurd hmem (List.not_mem_nil p)) h1
  have hfiles1 : p ∈ env1.files := by
    rcases foldl_dispatched_sub env1.files ⟨st, 0, []⟩ h1 with h | h
    · exact absurd h (List.not_mem_nil p)
    · exact h
  have hatt1 : (runOnce w env1 st).state.attempted p = some s := by
    rw [runOnce_state_attempted_eq]
    unfold pruneMissing
    dsimp only
    rw [if_pos hfiles1]
    exact hcycle1.1
  rw [runOnce_dispatched_eq]
  exact (foldl_attempted_frozen hs2 env2.files
    ⟨(runOnce w env1 st).state, 0, []⟩ hatt1 (List.not_mem_nil p)).2

/-- A cycle environment in which the single file `w/f.mkv` is discovered
with a fixed snapshot. -/
def envDispatch : Env :=
  { files := [["w", "f.mkv"]]
    stat := fun q => if q = ["w", "f.mkv"] then some ⟨3, 4⟩ else none
    now := 0
    callbackResult := fun _ => true
    existsAfter := fun _ => false
    fs := ⟨[], [["w"]]⟩
    resolve := id
    rmtreeFails := fun _ => false
    iterdirFails := fun _ => false
    rmdirFails := fun _ => false }

/-- Witness for C3: with settle 0 the file is dispatched in the first
cycle and not in the second, identical one. -/
theorem c3_witness :
    ¬ (["w", "f.mkv"] : FsPath) ∈
      (runOnce watcherCex envDispatch
        (runOnce watcherCex envDispatch TrackState.initial).state).dispatched :=
  c3_at_most_once watcherCex envDispatch envDispatch TrackState.initial
    ["w", "f.mkv"] ⟨3, 4⟩ (by decide) (by decide) (by decide)

/-! ### Claim C6 -/

/-- C6: tracking state is bounded by the discovery set. After a
`run_once` call, a path that was not produced by that call's discovery is
present in neither the pending map nor the attempted map (watcher.py
lines 84 and 94-100). -/
theorem c6_pruned_when_missing (w : Watcher) (env : Env) (st : TrackState)
    (p : FsPath) (hp : p ∉ env.files) :
    (runOnce w env st).state.pending p = none ∧
      (runOnce w env st).state.attempted p = none := by
  constructor
  · rw [runOnce_state_pending_eq]
    unfold pruneMissing
    dsimp only
    rw [if_neg hp]
  · rw [runOnce_state_attempted_eq]
    unfold pruneMissing
    dsimp only
    rw [if_neg hp]

/-- Witness for C6 at a concrete undiscovered path. -/
theorem c6_witness :
    (runOnce watcherCex envCex TrackState.initial).state.pending ["x"] =
        none ∧
      (runOnce watcherCex envCex TrackState.initial).state.attempted ["x"] =
        none :=
  c6_pruned_when_missing watcherCex envCex TrackState.initial ["x"]
    (by decide)

/-! ### Claim C9 -/

/-- C9: `run_once` preserves the invariant that no path is pending at the
very snapshot recorded as attempted for it — a dispatched file is removed
from pending exactly when its snapshot is stored in attempted
(watcher.py lines 66-73 and 80-81). -/
theorem c9_pending_attempted_disjoint (w : Watcher) (env : Env)
    (st : TrackState) (hst : PendingAttemptedDisjoint st) :
    PendingAttemptedDisjoint (runOnce w env st).state := by
  have h := foldl_disjoint w env env.files ⟨st, 0, []⟩ hst
  intro p s t hp
  rw [runOnce_state_pending_eq] at hp
  rw [runOnce_state_attempted_eq]
  unfold pruneMissing at hp ⊢
  dsimp only at hp ⊢
  by_cases hmem : p ∈ env.files
  · rw [if_pos hmem] at hp
    rw [if_pos hmem]
    exact h p s t hp
  · rw [if_neg hmem] at hp
    cases hp

/-- Witness for C9 from the empty initial state. -/
theorem c9_witness :
    PendingAttemptedDisjoint
      (runOnce watcherCex envDispatch TrackState.initial).state :=
  c9_pending_attempted_disjoint watcherCex envDispatch TrackState.initial
    (fun _ _ _ hp => Option.noConfusion hp)

/-! ### Claim C10 -/

/-- A tracking state holding one pending entry for `w/g.mkv`. -/
def stPendingG : TrackState :=
  { pending := fun q => if q = ["w", "g.mkv"] then some (⟨1, 1⟩, 5) else none
    attempted := fun q => if q = ["w", "g.mkv"] then some ⟨0, 0⟩ else none
    processed_dirs := [] }

/-- An environment whose only discovered file fails its `stat` call. -/
def envStatFail : Env :=
  { files := [["w", "g.mkv"]]
    stat := fun _ => none
    now := 9
    callbackResult := fun _ => true
    existsAfter := fun _ => true
    fs := ⟨[], [["w"]]⟩
    resolve := id
    rmtreeFails := fun _ => false
    iterdirFails := fun _ => false
    rmdirFails := fun _ => false }

/-- C10: a discovered file whose `stat` raises is still counted as seen
(watcher.py line 60 runs before line 62), so the call leaves both its
pending entry — including the original first-observation timestamp — and
its attempted entry unchanged: a transient stat failure neither resets
the settle timer nor prunes the path's tracking state. -/
theorem c10_stat_failure_frame (w : Watcher) (env : Env) (st : TrackState)
    (p : FsPath) (hp : p ∈ env.files) (hstat : env.stat p = none) :
    (runOnce w env st).state.pending p = st.pending p ∧
      (runOnce w env st).state.attempted p = st.attempted p := by
  rcases foldl_maps_stat_none hstat env.files ⟨st, 0, []⟩ with ⟨h1, h2⟩
  constructor
  · rw [runOnce_state_pending_eq]
    unfold pruneMissing
    dsimp only
    rw [if_pos hp]
    exact h1
  · rw [runOnce_state_attempted_eq]
    unfold pruneMissing
    dsimp only
    rw [if_pos hp]
    exact h2

/-- Witness for C10: the pending entry (with timestamp 5) and the
attempted entry of `w/g.mkv` survive a cycle in which its stat fails. -/
theorem c10_witness :
    (runOnce watcherCex envStatFail stPendingG).state.pending
          ["w", "g.mkv"] = stPendingG.pending ["w", "g.mkv"] ∧
      (runOnce watcherCex envStatFail stPendingG).state.attempted
          ["w", "g.mkv"] = stPendingG.attempted ["w", "g.mkv"] :=
  c10_stat_failure_frame watcherCex envStatFail stPendingG ["w", "g.mkv"]
    (by decide) (by decide)

/-! ### Claim C8 -/

/-- C8: dispatch bookkeeping is unconditional in the callback's boolean
result. For a dispatched file, `run_once` records its snapshot in the
attempted map and removes it from the pending map; the returned count
equals the number of dispatched files; on the dispatching iteration the
counter rises by one and the file's parent directory joins the
cleanup-candidate set exactly when the file no longer exists after the
callback (watcher.py lines 76-82); and the whole of `run_once` is
unchanged when the callback's boolean results are replaced arbitrarily
(the code discards them, line 77). -/
theorem c8_dispatch_bookkeeping (w : Watcher) (env : Env) (st : TrackState)
    (acc : CycleAcc) (g : FsPath → Bool) (p : FsPath) (s : FileState)
    (hs : env.stat p = some s) :
    (p ∈ (runOnce w env st).dispatched →
      (runOnce w env st).state.attempted p = some s ∧
        (runOnce w env st).state.pending p = none) ∧
      (runOnce w env st).processed = (runOnce w env st).dispatched.length ∧
      ((processOne w env acc p).dispatched = acc.dispatched ++ [p] →
        (processOne w env acc p).st.attempted p = some s ∧
          (processOne w env acc p).st.pending p = none ∧
          (processOne w env acc p).processed = acc.processed + 1 ∧
          (processOne w env acc p).st.processed_dirs =
            (if env.existsAfter p then acc.st.processed_dirs
             else acc.st.processed_dirs.insert (parentDir p))) ∧
      runOnce w { env with callbackResult := g } st = runOnce w env st := by
  refine ⟨?_, ?_, ?_, ?_⟩
  · intro h1
    rw [runOnce_dispatched_eq] at h1
    have hcycle := foldl_dispatched_invariant hs env.files
      ⟨st, 0, []⟩ (fun hmem => absurd hmem (List.not_mem_nil p)) h1
    have hfiles : p ∈ env.files := by
      rcases foldl_dispatched_sub env.files ⟨st, 0, []⟩ h1 with h | h
      · exact absurd h (List.not_mem_nil p)
      · exact h
    constructor
    · rw [runOnce_state_attempted_eq]
      unfold pruneMissing
      dsimp only
      rw [if_pos hfiles]
      exact hcycle.1
    · rw [runOnce_state_pending_eq]
      unfold pruneMissing
      dsimp only
      rw [if_pos hfiles]
      exact hcycle.2
  · rw [runOnce_processed_eq, runOnce_dispatched_eq]
    exact foldl_count_eq_length env.files ⟨st, 0, []⟩ rfl
  · intro hdisp
    rcases processOne_cases w env acc p with hc | ⟨s', hs', hatt, hc⟩ |
        ⟨s', hs', hatt, hc⟩
    · rw [hc] at hdisp
      exact absurd (congrArg List.length hdisp) (by simp)
    · rw [hc] at hdisp
      exact absurd (congrArg List.length hdisp) (by simp)
    · rw [hs] at hs'
      have hss : s = s' := Option.some.inj hs'
      subst hss
      rw [hc]
      refine ⟨?_, ?_, rfl, rfl⟩
      · exact mapUpdate_self _ _ _
      · exact mapUpdate_self _ _ _
  · cases env
    rfl

/-- Witness for C8 at the concrete dispatching fixture, with the
callback results flipped to `false` in the frame conjunct. -/
theorem c8_witness :
    ((["w", "f.mkv"] : FsPath) ∈
        (runOnce watcherCex envDispatch TrackState.initial).dispatched →
      (runOnce watcherCex envDispatch TrackState.initial).state.attempted
            ["w", "f.mkv"] = some ⟨3, 4⟩ ∧
        (runOnce watcherCex envDispatch TrackState.initial).state.pending
            ["w", "f.mkv"] = none) ∧
      (runOnce watcherCex envDispatch TrackState.initial).processed =
        (runOnce watcherCex envDispatch
          TrackState.initial).dispatched.length ∧
      ((processOne watcherCex envDispatch ⟨TrackState.initial, 0, []⟩
          ["w", "f.mkv"]).dispatched = [] ++ [["w", "f.mkv"]] →
        (processOne watcherCex envDispatch ⟨TrackState.initial, 0, []⟩
            ["w", "f.mkv"]).st.attempted ["w", "f.mkv"] = some ⟨3, 4⟩ ∧
          (processOne watcherCex envDispatch ⟨TrackState.initial, 0, []⟩
              ["w", "f.mkv"]).st.pending ["w", "f.mkv"] = none ∧
          (processOne watcherCex envDispatch ⟨TrackState.initial, 0, []⟩
              ["w", "f.mkv"]).processed = 0 + 1 ∧
          (processOne watcherCex envDispatch ⟨TrackState.initial, 0, []⟩
              ["w", "f.mkv"]).st.processed_dirs =
            (if envDispatch.existsAfter ["w", "f.mkv"]
             then (TrackState.initial).processed_dirs
             else (TrackState.initial).processed_dirs.insert
               (parentDir ["w", "f.mkv"]))) ∧
      runOnce watcherCex { envDispatch with callbackResult := fun _ => false }
          TrackState.initial =
        runOnce watcherCex envDispatch TrackState.initial :=
  c8_dispatch_bookkeeping watcherCex envDispatch TrackState.initial
    ⟨TrackState.initial, 0, []⟩ (fun _ => false) ["w", "f.mkv"] ⟨3, 4⟩
    (by decide)

/-! ### Claim C4 -/

theorem get_zero_of_head {α : Type} {l : List α} {a0 : α}
    (h0 : l.head? = some a0) (h : 0 < l.length) : l.get ⟨0, h⟩ = a0 := by
  cases l with
  | nil => cases h
  | cons a t => exact Option.some.inj h0

/-- Between a file's first sighting and its dispatch, the pending entry
keeps the snapshot and the first cycle's timestamp, and the attempted map
stays empty: the induction behind the settle-time analysis. -/
theorem c4_inv (w : Watcher) (envs : List Env) (st : TrackState)
    (p : FsPath) (s : FileState) (e0 : Env)
    (hfiles : ∀ e ∈ envs, e.files = [p])
    (hstat : ∀ e ∈ envs, e.stat p = some s)
    (he0 : envs.head? = some e0)
    (hpend : st.pending p = none) (hatt : st.attempted p = none) :
    ∀ i, i ≤ envs.length → 1 ≤ i →
      (∀ j : Fin envs.length, (j : Nat) < i →
        (envs.get j).now - e0.now < w.settle_seconds) →
      (stAfter w (envs.take i) st).pending p = some (s, e0.now) ∧
        (stAfter w (envs.take i) st).attempted p = none := by
  intro i
  induction i with
  | zero =>
    intro _ h1
    cases h1
  | succ n ih =>
    intro hle hpos hbef
    have hn : n < envs.length := Nat.lt_of_lt_of_le (Nat.lt_succ_self n) hle
    rw [stAfter_take_succ w envs st n hn]
    have hmem : envs.get ⟨n, hn⟩ ∈ envs := List.get_mem envs n hn
    rcases Nat.eq_zero_or_pos n with hzero | hgz
    · subst hzero
      have hget : envs.get ⟨0, hn⟩ = e0 := get_zero_of_head he0 hn
      have h0S : 0 < w.settle_seconds := by
        have hb := hbef ⟨0, hn⟩ (Nat.lt_succ_self 0)
        rw [hget, sub_self] at hb
        exact hb
      rcases runOnce_single_fresh w (envs.get ⟨0, hn⟩) st p s
          (hfiles _ hmem) (hstat _ hmem) hpend hatt with ⟨htrue, _⟩
      rcases htrue h0S with ⟨_, hp', ha'⟩
      have hnow : (envs.get ⟨0, hn⟩).now = e0.now := by rw [hget]
      rw [hnow] at hp'
      exact ⟨hp', ha'⟩
    · have ihres := ih (Nat.le_of_succ_le hle) hgz
        (fun j hj => hbef j (Nat.lt_succ_of_lt hj))
      rcases runOnce_single_pending w (envs.get ⟨n, hn⟩)
          (stAfter w (envs.take n) st) p s e0.now (hfiles _ hmem)
          (hstat _ hmem) ihres.1 ihres.2 with ⟨htrue, _⟩
      rcases htrue (hbef ⟨n, hn⟩ (Nat.lt_succ_self n)) with ⟨_, hp', ha'⟩
      exact ⟨hp', ha'⟩

/-- C4: the settle-time dispatch law. For a single discovered file whose
snapshot never changes, starting untracked, the `i`-th `run_once` call of
the loop returns 0 whenever the elapsed monotonic time since the file's
first observation (the first cycle's `now`) is strictly below the settle
duration, and returns 1 on the first call where the elapsed time reaches
it (all earlier calls being below). With settle duration 0 the case
`i = 0` dispatches the file on first sight (watcher.py lines 68-82). -/
theorem c4_settle_dispatch (w : Watcher) (envs : List Env) (st : TrackState)
    (p : FsPath) (s : FileState) (e0 : Env) (i : Fin envs.length)
    (hfiles : ∀ e ∈ envs, e.files = [p])
    (hstat : ∀ e ∈ envs, e.stat p = some s)
    (he0 : envs.head? = some e0)
    (hpend : st.pending p = none) (hatt : st.attempted p = none)
    (hbef : ∀ j : Fin envs.length, (j : Nat) < (i : Nat) →
      (envs.get j).now - e0.now < w.settle_seconds) :
    (runOnceAt w envs st i).processed =
      if (envs.get i).now - e0.now < w.settle_seconds then 0 else 1 := by
  unfold runOnceAt
  have hmem : envs.get i ∈ envs := List.get_mem envs i.1 i.2
  rcases Nat.eq_zero_or_pos i.1 with hzero | hgz
  · have hpos0 : 0 < envs.length := hzero ▸ i.2
    have hi0 : i = ⟨0, hpos0⟩ := Fin.ext hzero
    rw [hi0]
    have hget : envs.get ⟨0, hpos0⟩ = e0 := get_zero_of_head he0 _
    have hmem0 : envs.get ⟨0, hpos0⟩ ∈ envs := List.get_mem envs 0 hpos0
    rw [hget, sub_self]
    rcases runOnce_single_fresh w e0 st p s (hget ▸ hfiles _ hmem0)
        (hget ▸ hstat _ hmem0) hpend hatt with ⟨htrue, hfalse⟩
    by_cases hS : 0 < w.settle_seconds
    · rw [if_pos hS]
      have hst0 : stAfter w (envs.take (0 : Nat)) st = st := rfl
      rw [hst0]
      exact (htrue hS).1
    · rw [if_neg hS]
      have hst0 : stAfter w (envs.take (0 : Nat)) st = st := rfl
      rw [hst0]
      exact (hfalse hS).1
  · have hinv := c4_inv w envs st p s e0 hfiles hstat he0 hpend hatt i.1
      (Nat.le_of_lt i.2) hgz hbef
    rcases runOnce_single_pending w (envs.get i)
        (stAfter w (envs.take i.1) st) p s e0.now (hfiles _ hmem)
        (hstat _ hmem) hinv.1 hinv.2 with ⟨htrue, hfalse⟩
    by_cases hel : (envs.get i).now - e0.now < w.settle_seconds
    · rw [if_pos hel]
      exact (htrue hel).1
    · rw [if_neg hel]
      exact (hfalse hel).1

/-- A watcher with a settle duration of 10 seconds. -/
def watcherSettle : Watcher :=
  { settings :=
      { watch_input_directory := some ["w"]
        watch_poll_interval := 1
        watch_settle_seconds := 10
        watch_recursive := true
        cleanup_empty_source_dirs := true
        cleanup_processed_source_dirs := true
        mask := maskCex }
    watch_directory := ["w"]
    poll_interval := 1
    settle_seconds := 10
    cleanup_empty_source_dirs := true
    cleanup_processed_source_dirs := true }

/-- The dispatch environment observed at monotonic time `t`. -/
def envAt (t : Int) : Env :=
  { files := [["w", "f.mkv"]]
    stat := fun q => if q = ["w", "f.mkv"] then some ⟨3, 4⟩ else none
    now := t
    callbackResult := fun _ => true
    existsAfter := fun _ => false
    fs := ⟨[], [["w"]]⟩
    resolve := id
    rmtreeFails := fun _ => false
    iterdirFails := fun _ => false
    rmdirFails := fun _ => false }

/-- Witness for C4, tracing the repository's own settle test
(`test_watcher__waits_for_settle_time`): with settle 10 and cycles at
monotonic times 0, 5, 11, the third call is the first with elapsed time
at least 10 and returns 1. -/
theorem c4_witness :
    (runOnceAt watcherSettle [envAt 0, envAt 5, envAt 11]
        TrackState.initial ⟨2, by decide⟩).processed =
      if ([envAt 0, envAt 5, envAt 11].get ⟨2, by decide⟩).now -
            (envAt 0).now < watcherSettle.settle_seconds
        then 0 else 1 :=
  c4_settle_dispatch watcherSettle [envAt 0, envAt 5, envAt 11]
    TrackState.initial ["w", "f.mkv"] ⟨3, 4⟩ (envAt 0) ⟨2, by decide⟩
    (by decide) (by decide) rfl rfl rfl (by decide)

end Mnamer
